import Mathlib

/- Shallow embedding of the findshape vector-graphics shape matcher
   (src/findshape.py).  Coordinates are exact rationals.  The two
   numerical library routines the code calls, the square root inside
   np.linalg.norm and the singular value decomposition np.linalg.svd,
   are modelled as explicit oracle parameters; theorems that depend on
   their behaviour take the defining properties as hypotheses. -/

namespace FindShape

/-- A 2D point, one column of the 2 x n point matrix of the code. -/
abbrev Point : Type := ℚ × ℚ

/-- A 2 x 2 matrix with rows (a, b) and (c, d). -/
structure Mat2 where
  a : ℚ
  b : ℚ
  c : ℚ
  d : ℚ
deriving DecidableEq

/-- Matrix product, as numpy matmul on 2 x 2 arrays. -/
def Mat2.mul (M N : Mat2) : Mat2 :=
  ⟨M.a * N.a + M.b * N.c, M.a * N.b + M.b * N.d,
   M.c * N.a + M.d * N.c, M.c * N.b + M.d * N.d⟩

/-- Matrix transpose. -/
def Mat2.transpose (M : Mat2) : Mat2 := ⟨M.a, M.c, M.b, M.d⟩

/-- The 2 x 2 identity matrix. -/
def Mat2.id2 : Mat2 := ⟨1, 0, 0, 1⟩

/-- Apply the matrix to a column vector. -/
def Mat2.apply (M : Mat2) (p : Point) : Point :=
  (M.a * p.1 + M.b * p.2, M.c * p.1 + M.d * p.2)

/-- Determinant. -/
def Mat2.det (M : Mat2) : ℚ := M.a * M.d - M.b * M.c

/-- np.all(np.isfinite(R)) of line 98: a float entry is finite unless it
    is NaN or an infinity; an exact rational is always finite, so on this
    embedding the test is identically true. -/
def Mat2.allFinite (_ : Mat2) : Bool := true

/-- Orthogonality, M * Mt = I and Mt * M = I. -/
def Mat2.IsOrthogonal (M : Mat2) : Prop :=
  M.mul M.transpose = Mat2.id2 ∧ M.transpose.mul M = Mat2.id2

instance (M : Mat2) : Decidable M.IsOrthogonal := by
  unfold Mat2.IsOrthogonal; exact inferInstance

/-- Validity of a singular value decomposition M = u * s * vT as returned
    by np.linalg.svd: both factors orthogonal, and s diagonal with
    non-negative entries in descending order. -/
def IsSVD (M u s vT : Mat2) : Prop :=
  u.IsOrthogonal ∧ vT.IsOrthogonal ∧ s.b = 0 ∧ s.c = 0 ∧
    s.d ≤ s.a ∧ 0 ≤ s.d ∧ (u.mul s).mul vT = M

instance (M u s vT : Mat2) : Decidable (IsSVD M u s vT) := by
  unfold IsSVD; exact inferInstance

/-- An inkex Transform built from the six-tuple (a, b, c, d, e, f); it
    maps (x, y) to (a x + c y + e, b x + d y + f), the standard SVG
    matrix convention. -/
structure AffineT where
  a : ℚ
  b : ℚ
  c : ℚ
  d : ℚ
  e : ℚ
  f : ℚ
deriving DecidableEq

/-- Apply the affine transform to a point. -/
def AffineT.apply (t : AffineT) (p : Point) : Point :=
  (t.a * p.1 + t.c * p.2 + t.e, t.b * p.1 + t.d * p.2 + t.f)

/-- Composition outer after inner; this is the matmul operator of inkex
    Transforms, where T1 matmul T2 applies T2 first. -/
def AffineT.comp (o i : AffineT) : AffineT :=
  ⟨o.a * i.a + o.c * i.b, o.b * i.a + o.d * i.b,
   o.a * i.c + o.c * i.d, o.b * i.c + o.d * i.d,
   o.a * i.e + o.c * i.f + o.e, o.b * i.e + o.d * i.f + o.f⟩

/-- The identity affine transform. -/
def AffineT.idT : AffineT := ⟨1, 0, 0, 1, 0, 0⟩

/-- Shape.make_transform of lines 61-71: builds an inkex Transform from
    an optional uniform size, an optional 2 x 2 matrix (rows of the numpy
    array read as in the source: a = m00, b = m10, c = m01, d = m11) and
    an optional 2 x 1 translation column, every part scaled by size.
    Unset matrix means identity, unset translation means zero, the size
    argument defaults to 1 at the call sites that omit it. -/
def Shape.make_transform (size : ℚ) (matrix : Option Mat2) (translate : Option Point) : AffineT :=
  let a := match matrix with | some m => m.a | none => 1
  let b := match matrix with | some m => m.c | none => 0
  let c := match matrix with | some m => m.b | none => 0
  let d := match matrix with | some m => m.d | none => 1
  let tx := match translate with | some t => t.1 | none => 0
  let ty := match translate with | some t => t.2 | none => 0
  ⟨a * size, b * size, c * size, d * size, tx * size, ty * size⟩

/-- Mean of a list of points, np.mean along axis 1 (lines 59).  The empty
    list divides zero by zero, which is zero on rationals (numpy would
    produce NaN; no claim touches the empty case). -/
def meanPoint (ps : List Point) : Point :=
  ((ps.map Prod.fst).sum / ps.length, (ps.map Prod.snd).sum / ps.length)

/-- Sum of squares of all entries of the 2 x n matrix; np.linalg.norm of
    the point matrix is the square root of this value. -/
def sumSq (ps : List Point) : ℚ :=
  ps.foldr (fun p acc => p.1 ^ 2 + p.2 ^ 2 + acc) 0

/-- Elementwise difference of two equally long point matrices. -/
def pointDiffs (ps qs : List Point) : List Point :=
  List.zipWith (fun p q => (p.1 - q.1, p.2 - q.2)) ps qs

/-- np.max(np.abs(diff)) over all entries; starts the fold at 0, which
    agrees with numpy on every non-empty matrix since entries are
    absolute values (numpy raises on an empty one; no claim touches it). -/
def maxAbs (ps : List Point) : ℚ :=
  ps.foldr (fun p acc => max (max |p.1| |p.2|) acc) 0

/-- A Shape (lines 37-59): the extracted 2 x n point matrix, the centroid
    computed once at construction, and the rendering transform in effect
    at extraction time.  The originating document object is kept only as
    an opaque reference in the source and is not part of the geometry. -/
structure Shape where
  points : List Point
  centroid : Point
  renderT : AffineT
deriving DecidableEq

/-- A document element as seen by the matcher: an identifier, whether its
    element type is findable, its superpath (a list of subpaths, each a
    list of segments in the form (handle, node, handle)), and the composed
    rendering transform from the document root. -/
structure Element where
  eid : ℕ
  findable : Bool
  path : List (List (Point × Point × Point))
  renderT : AffineT
deriving DecidableEq

/-- Lines 49-52: with handles included every segment contributes its
    three points in order, otherwise only the middle node point. -/
def extractPoints (includeHandles : Bool) (segs : List (Point × Point × Point)) : List Point :=
  if includeHandles then (segs.map (fun s => [s.1, s.2.1, s.2.2])).flatten
  else segs.map (fun s => s.2.1)

/-- Shape construction (lines 38-59).  Fails (raising in the source, none
    here) unless the superpath has exactly one subpath; extracts the
    points, applies the rendering transform to each, reverses the column
    order when reverse_path is set, and only then computes the centroid. -/
def mkShape (includeHandles : Bool) (e : Element) (reverse_path : Bool) : Option Shape :=
  match e.path with
  | [segs] =>
    let pts0 := extractPoints includeHandles segs
    let pts1 := pts0.map e.renderT.apply
    let pts := if reverse_path then pts1.reverse else pts1
    some { points := pts, centroid := meanPoint pts, renderT := e.renderT }
  | _ => none

/-- Shape.center (lines 76-80): subtract the stored centroid from every
    point; the centroid field itself is not updated.  Returns the new
    shape state together with the translation by the centroid (inverse)
    or by its negation (forward). -/
def Shape.center (s : Shape) (return_inverse : Bool) : Shape × AffineT :=
  let s1 := { s with points := s.points.map (fun p => (p.1 - s.centroid.1, p.2 - s.centroid.2)) }
  if return_inverse then (s1, Shape.make_transform 1 none (some s.centroid))
  else (s1, Shape.make_transform 1 none (some (-s.centroid.1, -s.centroid.2)))

/-- Shape.resize_to (lines 82-91).  The Frobenius norms are the oracle
    square root of the sums of squares; if either is at most zero the
    points are left alone and the identity transform is returned,
    otherwise the points are scaled in place by target over source and a
    pure scale transform (or its reciprocal) is returned. -/
def Shape.resize_to (sqrtf : ℚ → ℚ) (s other : Shape) (return_inverse : Bool) : Shape × AffineT :=
  let source_size := sqrtf (sumSq s.points)
  let target_size := sqrtf (sumSq other.points)
  if source_size ≤ 0 ∨ target_size ≤ 0 then (s, Shape.make_transform 1 none none)
  else
    let scale_factor := target_size / source_size
    let s1 := { s with points := s.points.map (fun p => (scale_factor * p.1, scale_factor * p.2)) }
    if return_inverse then (s1, Shape.make_transform (1 / scale_factor) none none)
    else (s1, Shape.make_transform scale_factor none none)

/-- The cross covariance other.points matmul (self.points transposed) of
    line 96, a 2 x 2 matrix summing the outer products of corresponding
    columns. -/
def crossCov (other self : List Point) : Mat2 :=
  (List.zipWith (fun o s => ((o, s) : Point × Point)) other self).foldr
    (fun os M => ⟨os.1.1 * os.2.1 + M.a, os.1.1 * os.2.2 + M.b,
                  os.1.2 * os.2.1 + M.c, os.1.2 * os.2.2 + M.d⟩)
    ⟨0, 0, 0, 0⟩

/-- Shape.flip_and_rotate_to (lines 93-104).  The svd oracle stands for
    np.linalg.svd applied to the cross covariance; the code keeps only
    the two orthogonal factors and sets R to their product.  If R passes
    the finiteness test the points are replaced in place by R times the
    points and the transform built from R (forward) or its transpose
    (inverse) is returned; otherwise the shape is untouched and the
    identity transform is returned. -/
def Shape.flip_and_rotate_to (svdf : Mat2 → Mat2 × Mat2) (s other : Shape)
    (return_inverse : Bool) : Shape × AffineT :=
  let uv := svdf (crossCov other.points s.points)
  let R := uv.1.mul uv.2
  if R.allFinite then
    let s1 := { s with points := s.points.map R.apply }
    if return_inverse then (s1, Shape.make_transform 1 (some R.transpose) none)
    else (s1, Shape.make_transform 1 (some R) none)
  else (s, Shape.make_transform 1 none none)

/-- Shape.is_similar (lines 106-111): root mean square of the elementwise
    difference (2 n entries) at most the mean tolerance, and the largest
    absolute entry at most the max tolerance. -/
def Shape.is_similar (sqrtf : ℚ → ℚ) (s other : Shape)
    (mean_tolerance max_tolerance : ℚ) : Bool :=
  let diff := pointDiffs s.points other.points
  let mean_err := sqrtf (sumSq diff / (2 * diff.length))
  let max_err := maxAbs diff
  decide (mean_err ≤ mean_tolerance) && decide (max_err ≤ max_tolerance)

/-- The option record built by add_arguments (lines 117-128) plus the
    derived fields of effect. -/
structure Options where
  findrotate : Bool
  findflip : Bool
  findresize : Bool
  findrescale : Bool
  findtype : String
  maxerr : ℚ
  avgerr : ℚ
  replace : Bool
  delete : Bool
  replacetype : String
  replacewhere : String
deriving DecidableEq

/-- The argument parser defaults of lines 118-128. -/
def defaultOptions : Options :=
  { findrotate := true, findflip := true, findresize := true, findrescale := true,
    findtype := "nodes only", maxerr := 0, avgerr := 0, replace := false,
    delete := false, replacetype := "clone", replacewhere := "same parent as match" }

/-- Line 216: handles are included exactly when findtype selects nodes
    and handles. -/
def Options.includeHandles (o : Options) : Bool := o.findtype == "nodes and handles"

/-- The exceptions the matcher can surface: NotImplementedError from the
    unsupported option combinations (the UnsupportedConfigurationError of
    the specification), and the fatal template setup failures of effect. -/
inductive MatchErr where
  | notImplemented
  | invalidTemplate
deriving DecidableEq

/-- Result of a computation that can raise: either a value or an
    uncaught exception propagating to the caller. -/
inductive MRes (α : Type) where
  | ok (val : α)
  | error (err : MatchErr)
deriving DecidableEq

/-- FindShape.match_object (lines 154-195).  tmpl is the already centered
    template shape and template_transform the cached template frame
    transform.  Returns ok none on rejection, ok (some t) on a match, and
    error on the NotImplementedError raises of lines 172, 183 and 185. -/
def match_object (opts : Options) (sqrtf : ℚ → ℚ) (svdf : Mat2 → Mat2 × Mat2)
    (tmpl : Shape) (template_transform : AffineT) (e : Element)
    (reverse_path : Bool) : MRes (Option AffineT) :=
  match mkShape opts.includeHandles e reverse_path with
  | none => .ok none
  | some target =>
    if target.points.length ≠ tmpl.points.length then .ok none
    else
      let ct := target.center true
      let target1 := ct.1
      let transform0 := ct.2
      if opts.findrescale then .error .notImplemented
      else
        let rs :=
          if opts.findresize then
            let r := Shape.resize_to sqrtf target1 tmpl true
            (r.1, transform0.comp r.2)
          else (target1, transform0)
        let target2 := rs.1
        let transform1 := rs.2
        let finish := fun (tg : Shape) (tr : AffineT) =>
          if tg.is_similar sqrtf tmpl opts.avgerr opts.maxerr then
            MRes.ok (some (tr.comp template_transform))
          else MRes.ok none
        if opts.findflip && opts.findrotate then
          let fr := Shape.flip_and_rotate_to svdf target2 tmpl true
          finish fr.1 (transform1.comp fr.2)
        else if opts.findflip then .error .notImplemented
        else if opts.findrotate then .error .notImplemented
        else finish target2 transform1

/-- Lines 242-244 of effect: try the natural point order; only when that
    pass returns none rerun the whole pipeline once with the point
    sequence reversed.  A raise in the first pass propagates. -/
def match_with_retry (opts : Options) (sqrtf : ℚ → ℚ) (svdf : Mat2 → Mat2 × Mat2)
    (tmpl : Shape) (template_transform : AffineT) (e : Element) : MRes (Option AffineT) :=
  match match_object opts sqrtf svdf tmpl template_transform e false with
  | .error err => .error err
  | .ok (some t) => .ok (some t)
  | .ok none => match_object opts sqrtf svdf tmpl template_transform e true

/-- The candidate scan of effect (lines 236-247): walk the descendants in
    order, skip the template element itself and every element whose type
    is not findable, and collect the accepted matches with their final
    transforms.  An uncaught raise aborts the scan at that point. -/
def matchLoop (opts : Options) (sqrtf : ℚ → ℚ) (svdf : Mat2 → Mat2 × Mat2)
    (tmpl : Shape) (template_transform : AffineT) (template : Element) :
    List Element → MRes (List (Element × AffineT))
  | [] => .ok []
  | child :: rest =>
    if child = template ∨ child.findable = false then
      matchLoop opts sqrtf svdf tmpl template_transform template rest
    else
      match match_with_retry opts sqrtf svdf tmpl template_transform child with
      | .error err => .error err
      | .ok none => matchLoop opts sqrtf svdf tmpl template_transform template rest
      | .ok (some t) =>
        match matchLoop opts sqrtf svdf tmpl template_transform template rest with
        | .error err => .error err
        | .ok rs => .ok ((child, t) :: rs)

/-- FindShape.effect (lines 209-247), restricted to the matching core:
    reject a non findable or non constructible template (fatal), build
    and center the template shape once, cache the template frame
    transform translate_to_center matmul render_transform of line 233,
    and scan the document.  The document mutation steps (replace, delete,
    selection bookkeeping) do not affect which matches are found. -/
def effect (opts : Options) (sqrtf : ℚ → ℚ) (svdf : Mat2 → Mat2 × Mat2)
    (template : Element) (descendants : List Element) : MRes (List (Element × AffineT)) :=
  if template.findable = false then .error .invalidTemplate
  else
    match mkShape opts.includeHandles template false with
    | none => .error .invalidTemplate
    | some shape0 =>
      let c := shape0.center false
      let shape := c.1
      let translate_to_center := c.2
      let template_transform := translate_to_center.comp template.renderT
      matchLoop opts sqrtf svdf shape template_transform template descendants

/-- A computable stand in for the square root oracle, exact on perfect
    squares of naturals: used only to instantiate witnesses. -/
def ratSqrt (q : ℚ) : ℚ :=
  if q ≤ 0 then 0 else (Nat.sqrt q.num.toNat : ℚ) / (Nat.sqrt q.den : ℚ)

/-- An svd oracle used by witnesses; on every orthogonal input M the pair
    (M, identity) is a valid decomposition. -/
def svdOracle (M : Mat2) : Mat2 × Mat2 := (M, Mat2.id2)

/-- The template shape of the concrete scenario: a unit square traced
    through corners (0,0), (1,0), (1,1), (0,1), each superpath segment
    carrying coincident handles, with identity rendering transform. -/
def tmplE : Element :=
  { eid := 0, findable := true,
    path := [[((0, 0), (0, 0), (0, 0)), ((1, 0), (1, 0), (1, 0)),
              ((1, 1), (1, 1), (1, 1)), ((0, 1), (0, 1), (0, 1))]],
    renderT := AffineT.idT }

/-- The candidate of the concrete scenario: the same square rotated by 90
    degrees about the origin and translated by (5,5). -/
def candE : Element :=
  { eid := 1, findable := true,
    path := [[((5, 5), (5, 5), (5, 5)), ((5, 6), (5, 6), (5, 6)),
              ((4, 6), (4, 6), (4, 6)), ((4, 5), (4, 5), (4, 5))]],
    renderT := AffineT.idT }

/-- The scenario options: rotate, flip and resize enabled, rescale
    disabled, both tolerances zero. -/
def enabledOpts : Options := { defaultOptions with findrescale := false }

/-- A shape state whose stored centroid is the mean of its points, as
    every freshly constructed Shape satisfies. -/
def Shape.wellFormed (s : Shape) : Prop := s.centroid = meanPoint s.points

instance (s : Shape) : Decidable s.wellFormed := by
  unfold Shape.wellFormed; exact inferInstance

/-- A shape whose point matrix has zero mean. -/
def Shape.isCentered (s : Shape) : Prop := meanPoint s.points = (0, 0)

instance (s : Shape) : Decidable s.isCentered := by
  unfold Shape.isCentered; exact inferInstance

/-- The template shape of the scenario as constructed, before centering. -/
def tmplS0 : Shape :=
  { points := [(0, 0), (1, 0), (1, 1), (0, 1)], centroid := (1/2, 1/2),
    renderT := AffineT.idT }

/-- The template shape after the one centering of effect; note the stored
    centroid keeps its construction value. -/
def tmplC : Shape :=
  { points := [(-(1/2), -(1/2)), (1/2, -(1/2)), (1/2, 1/2), (-(1/2), 1/2)],
    centroid := (1/2, 1/2), renderT := AffineT.idT }

/-- The cached template frame transform of the scenario, centering
    composed with the identity rendering transform. -/
def tmplT : AffineT := ⟨1, 0, 0, 1, -(1/2), -(1/2)⟩

/-- The candidate shape of the scenario as constructed. -/
def candS0 : Shape :=
  { points := [(5, 5), (5, 6), (4, 6), (4, 5)], centroid := (9/2, 11/2),
    renderT := AffineT.idT }

/-- The candidate shape after centering. -/
def candS1 : Shape :=
  { points := [(1/2, -(1/2)), (1/2, 1/2), (-(1/2), 1/2), (-(1/2), -(1/2))],
    centroid := (9/2, 11/2), renderT := AffineT.idT }

/-- The candidate shape after the Procrustes alignment, with point matrix
    equal to the centered template points. -/
def candS2 : Shape :=
  { points := [(-(1/2), -(1/2)), (1/2, -(1/2)), (1/2, 1/2), (-(1/2), 1/2)],
    centroid := (9/2, 11/2), renderT := AffineT.idT }

/-- The final transform that the scenario produces: rotation by 90
    degrees followed by translation by (5, 5). -/
def scenarioT : AffineT := ⟨0, 1, -1, 0, 5, 5⟩

/-- The cross covariance of the scenario, the transpose of the 90 degree
    rotation matrix. -/
def scenarioM : Mat2 := ⟨0, 1, -1, 0⟩

/-- A triangle element with three vertices, used to exercise the point
    count rejection against the four point template. -/
def candTri : Element :=
  { eid := 2, findable := true,
    path := [[((0, 0), (0, 0), (0, 0)), ((3, 0), (3, 0), (3, 0)),
              ((0, 3), (0, 3), (0, 3))]],
    renderT := AffineT.idT }

/-- The shape extracted from the triangle element. -/
def triShape : Shape :=
  { points := [(0, 0), (3, 0), (0, 3)], centroid := (1, 1), renderT := AffineT.idT }

/-- An option record asking for flip without rotate, one of the
    unsupported combinations. -/
def xorOpts : Options := { defaultOptions with findrescale := false, findrotate := false }

theorem Mat2.mul_assoc (A B C : Mat2) : (A.mul B).mul C = A.mul (B.mul C) := by
  cases A; cases B; cases C
  simp only [Mat2.mul, Mat2.mk.injEq]
  refine ⟨by ring, by ring, by ring, by ring⟩

theorem Mat2.transpose_mul (A B : Mat2) :
    (A.mul B).transpose = B.transpose.mul A.transpose := by
  cases A; cases B
  simp only [Mat2.mul, Mat2.transpose, Mat2.mk.injEq]
  refine ⟨by ring, by ring, by ring, by ring⟩

theorem Mat2.transpose_transpose (A : Mat2) : A.transpose.transpose = A := rfl

theorem Mat2.mul_id2 (A : Mat2) : A.mul Mat2.id2 = A := by
  cases A
  simp [Mat2.mul, Mat2.id2]

theorem Mat2.id2_mul (A : Mat2) : Mat2.id2.mul A = A := by
  cases A
  simp [Mat2.mul, Mat2.id2]

theorem Mat2.det_mul (A B : Mat2) : (A.mul B).det = A.det * B.det := by
  cases A; cases B
  simp only [Mat2.mul, Mat2.det]
  ring

theorem Mat2.det_transpose (A : Mat2) : A.transpose.det = A.det := by
  cases A
  simp only [Mat2.transpose, Mat2.det]
  ring

theorem Mat2.det_id2 : Mat2.id2.det = 1 := by norm_num [Mat2.det, Mat2.id2]

theorem Mat2.IsOrthogonal.mul {A B : Mat2} (hA : A.IsOrthogonal) (hB : B.IsOrthogonal) :
    (A.mul B).IsOrthogonal := by
  constructor
  · rw [Mat2.transpose_mul, Mat2.mul_assoc, ← Mat2.mul_assoc B, hB.1, Mat2.id2_mul, hA.1]
  · rw [Mat2.transpose_mul, Mat2.mul_assoc, ← Mat2.mul_assoc A.transpose, hA.2,
      Mat2.id2_mul, hB.2]

theorem Mat2.IsOrthogonal.transpose {A : Mat2} (hA : A.IsOrthogonal) :
    A.transpose.IsOrthogonal := by
  constructor
  · rw [Mat2.transpose_transpose]; exact hA.2
  · rw [Mat2.transpose_transpose]; exact hA.1

theorem Mat2.IsOrthogonal.det_eq_one_or_neg_one {A : Mat2} (hA : A.IsOrthogonal) :
    A.det = 1 ∨ A.det = -1 := by
  have h1 : A.det * A.det = 1 := by
    have h := congrArg Mat2.det hA.1
    rwa [Mat2.det_mul, Mat2.det_transpose, Mat2.det_id2] at h
  exact mul_self_eq_one_iff.mp h1

/-- For an orthogonal input matrix any valid singular value decomposition
    has all singular values equal to one, so the product of the two
    orthogonal factors recovers the input exactly. -/
theorem svd_uvT_of_orthogonal {M u s vT : Mat2} (hM : M.IsOrthogonal)
    (h : IsSVD M u s vT) : u.mul vT = M := by
  obtain ⟨hu, hvT, hb, hc, hda, hd0, heq⟩ := h
  have hs_eq : s = (u.transpose.mul M).mul vT.transpose := by
    rw [← heq, ← Mat2.mul_assoc, ← Mat2.mul_assoc, hu.2, Mat2.id2_mul,
      Mat2.mul_assoc, hvT.1, Mat2.mul_id2]
  have hsorth : s.IsOrthogonal := by
    rw [hs_eq]
    exact (hu.transpose.mul hM).mul hvT.transpose
  have hid : s = Mat2.id2 := by
    obtain ⟨sa, sb, sc, sd⟩ := s
    simp only at hb hc hda hd0
    subst hb; subst hc
    have h2 := hsorth.1
    simp only [Mat2.mul, Mat2.transpose, Mat2.id2, Mat2.mk.injEq] at h2
    obtain ⟨ha2, -, -, hd2⟩ := h2
    have hsd : sd = 1 := by
      rcases mul_self_eq_one_iff.mp (by linarith [hd2] : sd * sd = 1) with h | h
      · exact h
      · exfalso; rw [h] at hd0; linarith
    have hsa : sa = 1 := by
      rcases mul_self_eq_one_iff.mp (by linarith [ha2] : sa * sa = 1) with h | h
      · exact h
      · exfalso; rw [h] at hda; rw [hsd] at hda; linarith
    simp [Mat2.id2, hsa, hsd]
  rw [hid] at heq
  rwa [Mat2.mul_id2] at heq

/-- Claim C4: on equal cardinality point sets with non-singular cross
    covariance, flip_and_rotate_to forms R as the product of the two
    orthogonal svd factors of the cross covariance, replaces the points
    in place by R times the points, and returns the transform built from
    R (forward) or its transpose (inverse); R is orthogonal and its
    determinant, unconstrained in sign, is 1 or -1, so reflections are
    recovered as well as rotations. -/
theorem procrustes_orthogonal_align (svdf : Mat2 → Mat2 × Mat2) (s other : Shape)
    (ri : Bool) (u sv vT : Mat2)
    (hlen : s.points.length = other.points.length)
    (hsvd : svdf (crossCov other.points s.points) = (u, vT))
    (hvalid : IsSVD (crossCov other.points s.points) u sv vT)
    (hns : (crossCov other.points s.points).det ≠ 0) :
    (u.mul vT).IsOrthogonal ∧ ((u.mul vT).det = 1 ∨ (u.mul vT).det = -1) ∧
      Shape.flip_and_rotate_to svdf s other ri
        = ({ s with points := s.points.map (u.mul vT).apply },
           Shape.make_transform 1 (some (if ri then (u.mul vT).transpose else u.mul vT)) none) := by
  have horth : (u.mul vT).IsOrthogonal := hvalid.1.mul hvalid.2.1
  refine ⟨horth, horth.det_eq_one_or_neg_one, ?_⟩
  cases ri <;>
    simp [Shape.flip_and_rotate_to, hsvd, Mat2.allFinite]

/-- Helper for centering: summing a coordinate after subtracting a
    constant subtracts the constant once per point. -/
theorem sum_map_fst_sub (ps : List Point) (cx cy : ℚ) :
    ((ps.map (fun p => (p.1 - cx, p.2 - cy))).map Prod.fst).sum
      = (ps.map Prod.fst).sum - ps.length * cx := by
  induction ps with
  | nil => simp
  | cons p t ih =>
    simp only [List.map_cons, List.sum_cons, ih, List.length_cons]
    push_cast
    ring

theorem sum_map_snd_sub (ps : List Point) (cx cy : ℚ) :
    ((ps.map (fun p => (p.1 - cx, p.2 - cy))).map Prod.snd).sum
      = (ps.map Prod.snd).sum - ps.length * cy := by
  induction ps with
  | nil => simp
  | cons p t ih =>
    simp only [List.map_cons, List.sum_cons, ih, List.length_cons]
    push_cast
    ring

/-- Centering a well formed shape produces a point matrix of zero mean. -/
theorem center_isCentered (s : Shape) (ri : Bool) (hw : s.wellFormed) :
    (s.center ri).1.isCentered := by
  have hpts : (s.center ri).1.points
      = s.points.map (fun p => (p.1 - s.centroid.1, p.2 - s.centroid.2)) := by
    cases ri <;> rfl
  rcases eq_or_ne s.points [] with hnil | hne
  · unfold Shape.isCentered
    rw [hpts, hnil]
    simp [meanPoint]
  · have hlen : (s.points.length : ℚ) ≠ 0 :=
      Nat.cast_ne_zero.mpr (fun h => hne (List.length_eq_zero.mp h))
    unfold Shape.isCentered
    rw [hpts]
    unfold meanPoint
    rw [sum_map_fst_sub, sum_map_snd_sub, List.length_map]
    have hcx : s.centroid.1 = (s.points.map Prod.fst).sum / s.points.length := by
      rw [hw]; rfl
    have hcy : s.centroid.2 = (s.points.map Prod.snd).sum / s.points.length := by
      rw [hw]; rfl
    rw [hcx, hcy, mul_div_cancel₀ _ hlen, mul_div_cancel₀ _ hlen]
    simp

/-- Claim C5: centering is idempotent for shapes whose stored centroid is
    the (just computed) mean of the points: on an already centered such
    shape the operation leaves the point matrix unchanged and returns the
    identity transform exactly, and centering any well formed shape
    yields a zero mean point matrix, so a second construction and
    centering changes nothing. -/
theorem center_idempotent (s : Shape) (ri : Bool) (hw : s.wellFormed) :
    (s.isCentered → s.center ri = (s, AffineT.idT)) ∧ (s.center ri).1.isCentered := by
  refine ⟨fun hc => ?_, center_isCentered s ri hw⟩
  have hc0 : s.centroid = (0, 0) := by rw [hw, hc]
  have hpts : s.points.map (fun p => (p.1 - s.centroid.1, p.2 - s.centroid.2))
      = s.points := by
    rw [hc0]
    simp
  have hshape : ({ s with
      points := s.points.map (fun p => (p.1 - s.centroid.1, p.2 - s.centroid.2)) } : Shape)
      = s := by
    rw [hpts]
  cases ri
  · have e1 : s.center false
        = ({ s with
             points := s.points.map (fun p => (p.1 - s.centroid.1, p.2 - s.centroid.2)) },
           Shape.make_transform 1 none (some (-s.centroid.1, -s.centroid.2))) := rfl
    rw [e1, hshape, hc0]
    norm_num [Shape.make_transform, AffineT.idT]
  · have e2 : s.center true
        = ({ s with
             points := s.points.map (fun p => (p.1 - s.centroid.1, p.2 - s.centroid.2)) },
           Shape.make_transform 1 none (some s.centroid)) := rfl
    rw [e2, hshape, hc0]
    norm_num [Shape.make_transform, AffineT.idT]

/-- Claim C7: resize_to returns the identity transform and leaves the
    points untouched when either Frobenius norm is at most zero (so no
    division by zero is performed), and otherwise scales the points in
    place by the ratio of the norms and returns the pure scale transform
    with that factor, or its reciprocal when the inverse is requested. -/
theorem resize_guard_and_scale (sqrtf : ℚ → ℚ) (s other : Shape) (ri : Bool) :
    (sqrtf (sumSq s.points) ≤ 0 ∨ sqrtf (sumSq other.points) ≤ 0 →
      Shape.resize_to sqrtf s other ri = (s, AffineT.idT)) ∧
    (0 < sqrtf (sumSq s.points) → 0 < sqrtf (sumSq other.points) →
      Shape.resize_to sqrtf s other ri
        = ({ s with points := s.points.map (fun p =>
              (sqrtf (sumSq other.points) / sqrtf (sumSq s.points) * p.1,
               sqrtf (sumSq other.points) / sqrtf (sumSq s.points) * p.2)) },
           if ri then
             ⟨1 / (sqrtf (sumSq other.points) / sqrtf (sumSq s.points)), 0, 0,
              1 / (sqrtf (sumSq other.points) / sqrtf (sumSq s.points)), 0, 0⟩
           else
             ⟨sqrtf (sumSq other.points) / sqrtf (sumSq s.points), 0, 0,
              sqrtf (sumSq other.points) / sqrtf (sumSq s.points), 0, 0⟩)) := by
  constructor
  · intro hdeg
    rw [Shape.resize_to, if_pos hdeg]
    norm_num [Shape.make_transform, AffineT.idT]
  · intro hs ho
    have hguard : ¬(sqrtf (sumSq s.points) ≤ 0 ∨ sqrtf (sumSq other.points) ≤ 0) := by
      push_neg
      exact ⟨hs, ho⟩
    rw [Shape.resize_to, if_neg hguard]
    cases ri <;> norm_num [Shape.make_transform]

theorem ratSqrt_zero : ratSqrt 0 = 0 := by norm_num [ratSqrt]

theorem ratSqrt_one : ratSqrt 1 = 1 := by
  norm_num [ratSqrt, Rat.num_one, Rat.den_one, Nat.sqrt_one]

theorem ratSqrt_two : ratSqrt 2 = 1 := by
  have h2 : Nat.sqrt 2 = 1 := (Nat.eq_sqrt.mpr (by norm_num)).symm
  have ht : (2 : ℤ).toNat = 2 := rfl
  norm_num [ratSqrt, Rat.num_ofNat, Rat.den_ofNat, ht, h2]

theorem ratSqrt_four : ratSqrt 4 = 2 := by
  have h4 : Nat.sqrt 4 = 2 := by
    rw [show (4 : ℕ) = 2 * 2 by norm_num]
    exact Nat.sqrt_eq 2
  have ht : (4 : ℤ).toNat = 4 := rfl
  norm_num [ratSqrt, Rat.num_ofNat, Rat.den_ofNat, ht, h4]

/-- Claim C8: when the candidate shape is constructed but its point
    matrix has a different shape from the template, match_object rejects
    with ok none, before any centering or linear algebra and in
    particular before the NotImplementedError raise that an unsupported
    configuration would otherwise hit, and without throwing. -/
theorem point_count_mismatch_rejects (opts : Options) (sqrtf : ℚ → ℚ)
    (svdf : Mat2 → Mat2 × Mat2) (tmpl : Shape) (tmplTf : AffineT) (e : Element)
    (rev : Bool) (target : Shape)
    (hextract : mkShape opts.includeHandles e rev = some target)
    (hcount : target.points.length ≠ tmpl.points.length) :
    match_object opts sqrtf svdf tmpl tmplTf e rev = .ok none := by
  simp [match_object, hextract, hcount]

/-- Claim C9: whenever findrescale is set, match_object raises
    NotImplementedError for every candidate that survives extraction and
    the point count check, whatever the value of findresize, and the
    argument parser defaults set both findrescale and findresize. -/
theorem rescale_raises_not_implemented (opts : Options) (sqrtf : ℚ → ℚ)
    (svdf : Mat2 → Mat2 × Mat2) (tmpl : Shape) (tmplTf : AffineT) (e : Element)
    (rev : Bool) (target : Shape)
    (hrescale : opts.findrescale = true)
    (hextract : mkShape opts.includeHandles e rev = some target)
    (hcount : target.points.length = tmpl.points.length) :
    match_object opts sqrtf svdf tmpl tmplTf e rev = .error .notImplemented
      ∧ defaultOptions.findrescale = true ∧ defaultOptions.findresize = true := by
  refine ⟨?_, rfl, rfl⟩
  simp [match_object, hextract, hcount, hrescale]

/-- Claim C2: every configuration that enables rescale, or that enables
    exactly one of flip and rotate, makes match_object raise
    NotImplementedError (the unsupported configuration error of the
    specification) on any candidate that reaches the corresponding
    branch, instead of silently approximating with a fallback. -/
theorem unsupported_config_errors (opts : Options) (sqrtf : ℚ → ℚ)
    (svdf : Mat2 → Mat2 × Mat2) (tmpl : Shape) (tmplTf : AffineT) (e : Element)
    (rev : Bool) (target : Shape)
    (hcfg : opts.findrescale = true ∨ opts.findflip ≠ opts.findrotate)
    (hextract : mkShape opts.includeHandles e rev = some target)
    (hcount : target.points.length = tmpl.points.length) :
    match_object opts sqrtf svdf tmpl tmplTf e rev = .error .notImplemented := by
  rcases hcfg with hr | hne
  · simp [match_object, hextract, hcount, hr]
  · cases hr2 : opts.findrescale
    · cases hf : opts.findflip <;> cases hrt : opts.findrotate
      · rw [hf, hrt] at hne; exact absurd rfl hne
      · simp [match_object, hextract, hcount, hr2, hf, hrt]
      · simp [match_object, hextract, hcount, hr2, hf, hrt]
      · rw [hf, hrt] at hne; exact absurd rfl hne
    · simp [match_object, hextract, hcount, hr2]

/-- The mean of a point list is invariant under reversal. -/
theorem meanPoint_reverse (ps : List Point) : meanPoint ps.reverse = meanPoint ps := by
  simp [meanPoint, List.sum_reverse]

/-- Claim C3: per candidate the pipeline runs on the natural point order
    first; exactly when that pass returns a rejection the whole pipeline
    is rerun once on the reversed point sequence, and the reversed run
    builds its Shape from the reversed sequence before any centering (the
    centroid is unchanged, so the construction commutes with reversal);
    a first pass that matches, or raises, ends the candidate without a
    reversed attempt, so only the two whole sequence orders are tried. -/
theorem reversed_retry_exactly_once (opts : Options) (sqrtf : ℚ → ℚ)
    (svdf : Mat2 → Mat2 × Mat2) (tmpl : Shape) (tmplTf : AffineT) (e : Element) :
    (∀ t, match_object opts sqrtf svdf tmpl tmplTf e false = .ok (some t) →
      match_with_retry opts sqrtf svdf tmpl tmplTf e = .ok (some t)) ∧
    (match_object opts sqrtf svdf tmpl tmplTf e false = .ok none →
      match_with_retry opts sqrtf svdf tmpl tmplTf e
        = match_object opts sqrtf svdf tmpl tmplTf e true) ∧
    (∀ ih, mkShape ih e true
        = (mkShape ih e false).map (fun s => { s with points := s.points.reverse })) := by
  refine ⟨fun t h => ?_, fun h => ?_, fun ih => ?_⟩
  · simp [match_with_retry, h]
  · simp [match_with_retry, h]
  · rcases hp : e.path with _ | ⟨segs, _ | ⟨s2, tl⟩⟩ <;>
      simp [mkShape, hp, meanPoint_reverse]

theorem scenarioM_orthogonal : scenarioM.IsOrthogonal := by
  constructor <;> norm_num [scenarioM, Mat2.mul, Mat2.transpose, Mat2.id2]

theorem scenario_mkShape_cand : mkShape false candE false = some candS0 := by
  norm_num [mkShape, candE, extractPoints, meanPoint, AffineT.apply, AffineT.idT, candS0]

theorem scenario_center_cand :
    candS0.center true = (candS1, ⟨1, 0, 0, 1, 9/2, 11/2⟩) := by
  norm_num [Shape.center, candS0, candS1, Shape.make_transform]

theorem scenario_resize (sqrtf : ℚ → ℚ) (hq2 : 0 < sqrtf 2) :
    Shape.resize_to sqrtf candS1 tmplC true = (candS1, AffineT.idT) := by
  have hs : sumSq candS1.points = 2 := by norm_num [sumSq, candS1]
  have ho : sumSq tmplC.points = 2 := by norm_num [sumSq, tmplC]
  have hng : ¬(sqrtf 2 ≤ 0 ∨ sqrtf 2 ≤ 0) := by
    push_neg
    exact ⟨hq2, hq2⟩
  have hdiv : sqrtf 2 / sqrtf 2 = 1 := div_self (ne_of_gt hq2)
  simp only [Shape.resize_to, hs, ho]
  rw [if_neg hng]
  simp only [hdiv]
  norm_num [candS1, AffineT.idT, Shape.make_transform]

theorem scenario_crossCov : crossCov tmplC.points candS1.points = scenarioM := by
  norm_num [crossCov, tmplC, candS1, scenarioM]

theorem scenario_flip (svdf : Mat2 → Mat2 × Mat2) (u sv vT : Mat2)
    (hsvd : svdf scenarioM = (u, vT)) (hval : IsSVD scenarioM u sv vT) :
    Shape.flip_and_rotate_to svdf candS1 tmplC true = (candS2, ⟨0, 1, -1, 0, 0, 0⟩) := by
  have hR : u.mul vT = scenarioM := svd_uvT_of_orthogonal scenarioM_orthogonal hval
  simp only [Shape.flip_and_rotate_to, scenario_crossCov, hsvd, hR]
  simp only [Mat2.allFinite, if_true]
  norm_num [candS1, candS2, scenarioM, Mat2.apply, Mat2.transpose, Shape.make_transform]

theorem scenario_similar (sqrtf : ℚ → ℚ) (hq0 : sqrtf 0 ≤ 0) :
    Shape.is_similar sqrtf candS2 tmplC 0 0 = true := by
  have hd : pointDiffs candS2.points tmplC.points
      = [(0, 0), (0, 0), (0, 0), (0, 0)] := by
    norm_num [pointDiffs, candS2, tmplC]
  simp only [Shape.is_similar, hd]
  norm_num [sumSq, maxAbs, decide_eq_true_eq, hq0]

theorem scenario_forward (sqrtf : ℚ → ℚ) (svdf : Mat2 → Mat2 × Mat2) (u sv vT : Mat2)
    (hq2 : 0 < sqrtf 2) (hq0 : sqrtf 0 ≤ 0)
    (hsvd : svdf scenarioM = (u, vT)) (hval : IsSVD scenarioM u sv vT) :
    match_object enabledOpts sqrtf svdf tmplC tmplT candE false = .ok (some scenarioT) := by
  have hih : enabledOpts.includeHandles = false := by decide
  have hlen : candS0.points.length = tmplC.points.length := by norm_num [candS0, tmplC]
  have hcomp1 : AffineT.comp ⟨1, 0, 0, 1, 9/2, 11/2⟩ AffineT.idT
      = ⟨1, 0, 0, 1, 9/2, 11/2⟩ := by
    norm_num [AffineT.comp, AffineT.idT]
  have hcomp2 : AffineT.comp ⟨1, 0, 0, 1, 9/2, 11/2⟩ ⟨0, 1, -1, 0, 0, 0⟩
      = ⟨0, 1, -1, 0, 9/2, 11/2⟩ := by
    norm_num [AffineT.comp]
  have hcomp3 : AffineT.comp ⟨0, 1, -1, 0, 9/2, 11/2⟩ tmplT = scenarioT := by
    norm_num [AffineT.comp, tmplT, scenarioT]
  have hb1 : enabledOpts.findrescale = false := rfl
  have hb2 : enabledOpts.findresize = true := rfl
  have hb3 : enabledOpts.findflip = true := rfl
  have hb4 : enabledOpts.findrotate = true := rfl
  have hav : enabledOpts.avgerr = 0 := rfl
  have hmx : enabledOpts.maxerr = 0 := rfl
  simp only [match_object, hih, scenario_mkShape_cand, hlen, ne_eq, not_true_eq_false,
    if_false, ite_false, scenario_center_cand]
  norm_num [scenario_resize sqrtf hq2, hcomp1, scenario_flip svdf u sv vT hsvd hval,
    hcomp2, scenario_similar sqrtf hq0, hcomp3, hb1, hb2, hb3, hb4, hav, hmx]

theorem scenario_template_shape : mkShape false tmplE false = some tmplS0 := by
  norm_num [mkShape, tmplE, extractPoints, meanPoint, AffineT.apply, AffineT.idT, tmplS0]

theorem scenario_template_center : tmplS0.center false = (tmplC, tmplT) := by
  norm_num [Shape.center, tmplS0, tmplC, tmplT, Shape.make_transform]

theorem scenario_template_frame : tmplT.comp tmplE.renderT = tmplT := by
  norm_num [AffineT.comp, tmplT, tmplE, AffineT.idT]

theorem scenario_effect (sqrtf : ℚ → ℚ) (svdf : Mat2 → Mat2 × Mat2) (u sv vT : Mat2)
    (hq2 : 0 < sqrtf 2) (hq0 : sqrtf 0 ≤ 0)
    (hsvd : svdf scenarioM = (u, vT)) (hval : IsSVD scenarioM u sv vT) :
    effect enabledOpts sqrtf svdf tmplE [tmplE, candE] = .ok [(candE, scenarioT)] := by
  have hih : enabledOpts.includeHandles = false := by decide
  have hfd : tmplE.findable = true := rfl
  have hskip2 : ¬(candE = tmplE ∨ candE.findable = false) := by
    norm_num [candE, tmplE]
  simp only [effect, hih, hfd, Bool.true_eq_false, if_false, ite_false,
    scenario_template_shape, scenario_template_center, scenario_template_frame]
  simp only [matchLoop, match_with_retry,
    scenario_forward sqrtf svdf u sv vT hq2 hq0 hsvd hval]
  simp [hskip2]

/-- Claim C1: on acceptance the returned transform is the candidate
    normalization inverse chain composed left of the cached template
    frame transform, and in the concrete scenario (unit square template;
    candidate equal to the square rotated by 90 degrees and translated by
    (5, 5); rotate, flip and resize enabled; tolerances zero) the scan
    returns exactly one match whose transform maps the four original
    template corners exactly onto the four observed candidate corners. -/
theorem unit_square_scenario (sqrtf : ℚ → ℚ) (svdf : Mat2 → Mat2 × Mat2) (u sv vT : Mat2)
    (hq2 : 0 < sqrtf 2) (hq0 : sqrtf 0 ≤ 0)
    (hsvd : svdf scenarioM = (u, vT)) (hval : IsSVD scenarioM u sv vT) :
    effect enabledOpts sqrtf svdf tmplE [tmplE, candE] = .ok [(candE, scenarioT)]
      ∧ ([(0, 0), (1, 0), (1, 1), (0, 1)] : List Point).map scenarioT.apply
          = [(5, 5), (5, 6), (4, 6), (4, 5)] := by
  refine ⟨scenario_effect sqrtf svdf u sv vT hq2 hq0 hsvd hval, ?_⟩
  norm_num [scenarioT, AffineT.apply]

/-- Every pair collected by the candidate scan names an element that is
    neither the template nor of a non findable type. -/
theorem matchLoop_skips (opts : Options) (sqrtf : ℚ → ℚ) (svdf : Mat2 → Mat2 × Mat2)
    (tmpl : Shape) (tmplTf : AffineT) (template : Element) :
    ∀ (children : List Element) (res : List (Element × AffineT)),
      matchLoop opts sqrtf svdf tmpl tmplTf template children = .ok res →
      ∀ p ∈ res, p.1 ≠ template ∧ p.1.findable = true := by
  intro children
  induction children with
  | nil =>
    intro res h p hp
    simp only [matchLoop, MRes.ok.injEq] at h
    subst h
    exact absurd hp (by simp)
  | cons c rest ih =>
    intro res h p hp
    rw [matchLoop] at h
    by_cases hskip : (c = template ∨ c.findable = false)
    · rw [if_pos hskip] at h
      exact ih res h p hp
    · rw [if_neg hskip] at h
      push_neg at hskip
      obtain ⟨hct, hcf⟩ := hskip
      have hcf' : c.findable = true := by
        cases hc : c.findable
        · exact absurd hc hcf
        · rfl
      cases hm : match_with_retry opts sqrtf svdf tmpl tmplTf c with
      | error err => rw [hm] at h; simp at h
      | ok r =>
        rw [hm] at h
        cases r with
        | none => exact ih res h p hp
        | some t =>
          cases hr : matchLoop opts sqrtf svdf tmpl tmplTf template rest with
          | error err => rw [hr] at h; simp at h
          | ok rs =>
            rw [hr] at h
            simp only [MRes.ok.injEq] at h
            subst h
            rcases List.mem_cons.mp hp with hpc | hpr
            · subst hpc
              exact ⟨hct, hcf'⟩
            · exact ih rs hr p hpr

/-- Claim C10: the scan never compares the template with itself, and
    skips every non findable element, so no returned match pairs the
    template with its own element. -/
theorem template_never_matches_itself (opts : Options) (sqrtf : ℚ → ℚ)
    (svdf : Mat2 → Mat2 × Mat2) (template : Element) (descendants : List Element)
    (res : List (Element × AffineT))
    (h : effect opts sqrtf svdf template descendants = .ok res) :
    ∀ p ∈ res, p.1 ≠ template ∧ p.1.findable = true := by
  rw [effect] at h
  by_cases hf : template.findable = false
  · rw [if_pos hf] at h
    simp at h
  · rw [if_neg hf] at h
    cases hmk : mkShape opts.includeHandles template false with
    | none =>
      rw [hmk] at h
      simp at h
    | some s0 =>
      simp only [hmk] at h
      exact matchLoop_skips opts sqrtf svdf _ _ template descendants res h

theorem ratSqrt_two_pos : 0 < ratSqrt 2 := by
  rw [ratSqrt_two]
  norm_num

theorem scenario_svd_valid : IsSVD scenarioM scenarioM Mat2.id2 Mat2.id2 := by
  norm_num [IsSVD, Mat2.IsOrthogonal, Mat2.mul, Mat2.transpose, Mat2.id2, scenarioM]

theorem unit_square_scenario_witness :
    (0 < ratSqrt 2 ∧ ratSqrt 0 ≤ 0 ∧ svdOracle scenarioM = (scenarioM, Mat2.id2)
      ∧ IsSVD scenarioM scenarioM Mat2.id2 Mat2.id2) ∧
    (effect enabledOpts ratSqrt svdOracle tmplE [tmplE, candE] = .ok [(candE, scenarioT)]
      ∧ ([(0, 0), (1, 0), (1, 1), (0, 1)] : List Point).map scenarioT.apply
          = [(5, 5), (5, 6), (4, 6), (4, 5)]) :=
  ⟨⟨ratSqrt_two_pos, le_of_eq ratSqrt_zero, rfl, scenario_svd_valid⟩,
    unit_square_scenario ratSqrt svdOracle scenarioM Mat2.id2 Mat2.id2
      ratSqrt_two_pos (le_of_eq ratSqrt_zero) rfl scenario_svd_valid⟩

theorem unsupported_config_errors_witness :
    ((xorOpts.findrescale = true ∨ xorOpts.findflip ≠ xorOpts.findrotate)
      ∧ mkShape xorOpts.includeHandles candE false = some candS0
      ∧ candS0.points.length = tmplC.points.length) ∧
    match_object xorOpts ratSqrt svdOracle tmplC tmplT candE false
      = .error .notImplemented := by
  have hih : xorOpts.includeHandles = false := by decide
  have hcfg : xorOpts.findrescale = true ∨ xorOpts.findflip ≠ xorOpts.findrotate := by
    right
    decide
  have hext : mkShape xorOpts.includeHandles candE false = some candS0 := by
    rw [hih]
    exact scenario_mkShape_cand
  have hlen : candS0.points.length = tmplC.points.length := by norm_num [candS0, tmplC]
  exact ⟨⟨hcfg, hext, hlen⟩, unsupported_config_errors xorOpts ratSqrt svdOracle tmplC
    tmplT candE false candS0 hcfg hext hlen⟩

theorem point_count_mismatch_rejects_witness :
    (mkShape defaultOptions.includeHandles candTri false = some triShape
      ∧ triShape.points.length ≠ tmplC.points.length) ∧
    match_object defaultOptions ratSqrt svdOracle tmplC tmplT candTri false = .ok none := by
  have hih : defaultOptions.includeHandles = false := by decide
  have hext : mkShape defaultOptions.includeHandles candTri false = some triShape := by
    rw [hih]
    norm_num [mkShape, candTri, extractPoints, meanPoint, AffineT.apply, AffineT.idT, triShape]
  have hcnt : triShape.points.length ≠ tmplC.points.length := by norm_num [triShape, tmplC]
  exact ⟨⟨hext, hcnt⟩, point_count_mismatch_rejects defaultOptions ratSqrt svdOracle tmplC
    tmplT candTri false triShape hext hcnt⟩

theorem rescale_raises_witness :
    (defaultOptions.findrescale = true
      ∧ mkShape defaultOptions.includeHandles candE false = some candS0
      ∧ candS0.points.length = tmplC.points.length) ∧
    (match_object defaultOptions ratSqrt svdOracle tmplC tmplT candE false
        = .error .notImplemented
      ∧ defaultOptions.findrescale = true ∧ defaultOptions.findresize = true) := by
  have hih : defaultOptions.includeHandles = false := by decide
  have hext : mkShape defaultOptions.includeHandles candE false = some candS0 := by
    rw [hih]
    exact scenario_mkShape_cand
  have hlen : candS0.points.length = tmplC.points.length := by norm_num [candS0, tmplC]
  exact ⟨⟨rfl, hext, hlen⟩, rescale_raises_not_implemented defaultOptions ratSqrt svdOracle
    tmplC tmplT candE false candS0 rfl hext hlen⟩

theorem reversed_retry_witness :
    (match_object enabledOpts ratSqrt svdOracle tmplC tmplT candE false = .ok (some scenarioT)
      ∧ match_with_retry enabledOpts ratSqrt svdOracle tmplC tmplT candE
          = .ok (some scenarioT)) ∧
    (match_object enabledOpts ratSqrt svdOracle tmplC tmplT candTri false = .ok none
      ∧ match_with_retry enabledOpts ratSqrt svdOracle tmplC tmplT candTri
          = match_object enabledOpts ratSqrt svdOracle tmplC tmplT candTri true) ∧
    mkShape false candE true
      = (mkShape false candE false).map (fun s => { s with points := s.points.reverse }) := by
  have hfwd := scenario_forward ratSqrt svdOracle scenarioM Mat2.id2 Mat2.id2
    ratSqrt_two_pos (le_of_eq ratSqrt_zero) rfl scenario_svd_valid
  have hih : enabledOpts.includeHandles = false := by decide
  have hextTri : mkShape false candTri false = some triShape := by
    norm_num [mkShape, candTri, extractPoints, meanPoint, AffineT.apply, AffineT.idT, triShape]
  have hrej : match_object enabledOpts ratSqrt svdOracle tmplC tmplT candTri false
      = .ok none := by
    have hcnt : triShape.points.length ≠ tmplC.points.length := by norm_num [triShape, tmplC]
    simp [match_object, hih, hextTri, hcnt]
  have hthm := reversed_retry_exactly_once enabledOpts ratSqrt svdOracle tmplC tmplT candE
  have hthm2 := reversed_retry_exactly_once enabledOpts ratSqrt svdOracle tmplC tmplT candTri
  exact ⟨⟨hfwd, hthm.1 scenarioT hfwd⟩, ⟨hrej, hthm2.2.1 hrej⟩, hthm.2.2 false⟩

theorem procrustes_orthogonal_align_witness :
    (tmplC.points.length = tmplC.points.length
      ∧ svdOracle (crossCov tmplC.points tmplC.points) = (Mat2.id2, Mat2.id2)
      ∧ IsSVD (crossCov tmplC.points tmplC.points) Mat2.id2 Mat2.id2 Mat2.id2
      ∧ (crossCov tmplC.points tmplC.points).det ≠ 0) ∧
    ((Mat2.id2.mul Mat2.id2).IsOrthogonal
      ∧ ((Mat2.id2.mul Mat2.id2).det = 1 ∨ (Mat2.id2.mul Mat2.id2).det = -1)
      ∧ Shape.flip_and_rotate_to svdOracle tmplC tmplC false
          = ({ tmplC with points := tmplC.points.map (Mat2.id2.mul Mat2.id2).apply },
             Shape.make_transform 1 (some (Mat2.id2.mul Mat2.id2)) none)) := by
  have hcc : crossCov tmplC.points tmplC.points = Mat2.id2 := by
    norm_num [crossCov, tmplC, Mat2.id2]
  have hsvd : svdOracle (crossCov tmplC.points tmplC.points) = (Mat2.id2, Mat2.id2) := by
    rw [hcc]
    rfl
  have hval : IsSVD (crossCov tmplC.points tmplC.points) Mat2.id2 Mat2.id2 Mat2.id2 := by
    rw [hcc]
    norm_num [IsSVD, Mat2.IsOrthogonal, Mat2.mul, Mat2.transpose, Mat2.id2]
  have hns : (crossCov tmplC.points tmplC.points).det ≠ 0 := by
    rw [hcc]
    norm_num [Mat2.det, Mat2.id2]
  exact ⟨⟨rfl, hsvd, hval, hns⟩, procrustes_orthogonal_align svdOracle tmplC tmplC false
    Mat2.id2 Mat2.id2 Mat2.id2 rfl hsvd hval hns⟩

theorem center_idempotent_witness :
    ((⟨[(1, 0), (-1, 0)], (0, 0), AffineT.idT⟩ : Shape).wellFormed
      ∧ (⟨[(1, 0), (-1, 0)], (0, 0), AffineT.idT⟩ : Shape).isCentered) ∧
    ((⟨[(1, 0), (-1, 0)], (0, 0), AffineT.idT⟩ : Shape).center true
        = (⟨[(1, 0), (-1, 0)], (0, 0), AffineT.idT⟩, AffineT.idT)
      ∧ ((⟨[(1, 0), (-1, 0)], (0, 0), AffineT.idT⟩ : Shape).center true).1.isCentered) := by
  have hw : (⟨[(1, 0), (-1, 0)], (0, 0), AffineT.idT⟩ : Shape).wellFormed := by
    norm_num [Shape.wellFormed, meanPoint]
  have hc : (⟨[(1, 0), (-1, 0)], (0, 0), AffineT.idT⟩ : Shape).isCentered := by
    norm_num [Shape.isCentered, meanPoint]
  have h := center_idempotent ⟨[(1, 0), (-1, 0)], (0, 0), AffineT.idT⟩ true hw
  exact ⟨⟨hw, hc⟩, h.1 hc, h.2⟩

theorem resize_guard_and_scale_witness :
    (ratSqrt (sumSq ([(0, 0)] : List Point)) ≤ 0
      ∧ 0 < ratSqrt (sumSq ([(1, 0)] : List Point))
      ∧ 0 < ratSqrt (sumSq ([(2, 0)] : List Point))) ∧
    Shape.resize_to ratSqrt ⟨[(0, 0)], (0, 0), AffineT.idT⟩ ⟨[(1, 0)], (1, 0), AffineT.idT⟩ false
      = (⟨[(0, 0)], (0, 0), AffineT.idT⟩, AffineT.idT) ∧
    Shape.resize_to ratSqrt ⟨[(1, 0)], (1, 0), AffineT.idT⟩ ⟨[(2, 0)], (2, 0), AffineT.idT⟩ false
      = (⟨[(2, 0)], (1, 0), AffineT.idT⟩, ⟨2, 0, 0, 2, 0, 0⟩) := by
  have e0 : sumSq ([(0, 0)] : List Point) = 0 := by norm_num [sumSq]
  have e1 : sumSq ([(1, 0)] : List Point) = 1 := by norm_num [sumSq]
  have e2 : sumSq ([(2, 0)] : List Point) = 4 := by norm_num [sumSq]
  have ha : ratSqrt (sumSq ([(0, 0)] : List Point)) ≤ 0 := by rw [e0, ratSqrt_zero]
  have hb : 0 < ratSqrt (sumSq ([(1, 0)] : List Point)) := by rw [e1, ratSqrt_one]; norm_num
  have hc : 0 < ratSqrt (sumSq ([(2, 0)] : List Point)) := by rw [e2, ratSqrt_four]; norm_num
  have h1 := (resize_guard_and_scale ratSqrt ⟨[(0, 0)], (0, 0), AffineT.idT⟩
    ⟨[(1, 0)], (1, 0), AffineT.idT⟩ false).1 (Or.inl ha)
  have h2 := (resize_guard_and_scale ratSqrt ⟨[(1, 0)], (1, 0), AffineT.idT⟩
    ⟨[(2, 0)], (2, 0), AffineT.idT⟩ false).2 hb hc
  rw [e1, e2, ratSqrt_one, ratSqrt_four] at h2
  norm_num at h2
  exact ⟨⟨ha, hb, hc⟩, h1, h2⟩

theorem template_never_matches_itself_witness :
    effect enabledOpts ratSqrt svdOracle tmplE [tmplE, candE] = .ok [(candE, scenarioT)]
      ∧ (candE ≠ tmplE ∧ candE.findable = true) := by
  have hrun := scenario_effect ratSqrt svdOracle scenarioM Mat2.id2 Mat2.id2
    ratSqrt_two_pos (le_of_eq ratSqrt_zero) rfl scenario_svd_valid
  exact ⟨hrun, template_never_matches_itself enabledOpts ratSqrt svdOracle tmplE
    [tmplE, candE] [(candE, scenarioT)] hrun (candE, scenarioT) (by simp)⟩

end FindShape
